import Mathlib

/-!
Verification development for `extract_twitter_archive.py`: a shallow
embedding of the record loader (`load_twitter_js`) and the aggregation
pipeline (`process_tweets`), together with theorems settling the spec's
claims about them.

Python dictionaries (and `collections.Counter`) preserve insertion order,
so they are embedded as association lists `List (String × _)` where an
update keeps an existing key in place and a fresh key is appended at the
end.  Machine-independent Python integers are embedded as `Nat` (all the
counters in the program are non-negative).  Fallible operations return
`Option`.
-/

/-- Python dict / `collections.Counter` with `Nat` values, in insertion order. -/
abbrev PyCounter := List (String × Nat)

/-- `Counter[k] += 1`: bump an existing key in place, or append `(k, 1)` at the
end, exactly as a Python dict records a fresh key. -/
def incr (c : PyCounter) (k : String) : PyCounter :=
  match c with
  | [] => [(k, 1)]
  | (k₀, v) :: rest => if k₀ = k then (k₀, v + 1) :: rest else (k₀, v) :: incr rest k

/-- `d.setdefault(k, dflt)` followed by an in-place modification `f` of `d[k]`:
an existing key is updated in place, a fresh key is appended as `(k, f dflt)`. -/
def updateAssoc {α : Type} (l : List (String × α)) (k : String) (dflt : α) (f : α → α) :
    List (String × α) :=
  match l with
  | [] => [(k, f dflt)]
  | (k₀, v) :: rest =>
    if k₀ = k then (k₀, f v) :: rest else (k₀, v) :: updateAssoc rest k dflt f

/-- `m.setdefault(year, Counter())[k] += 1` for a dict of Counters. -/
def incrNested (m : List (String × PyCounter)) (year k : String) :
    List (String × PyCounter) :=
  updateAssoc m year [] (fun c => incr c k)

/-- Keys of an association list, in insertion order. -/
def keysOf {α : Type} (l : List (String × α)) : List String := l.map (fun p => p.1)

/-- Stable insertion into a list already sorted by `r` (`r x y` = "x may come
before y"): `x` goes in front of the first element `y` with `r x y`. -/
def insertBy {α : Type} (r : α → α → Bool) (x : α) : List α → List α
  | [] => [x]
  | y :: l => if r x y then x :: y :: l else y :: insertBy r x l

/-- Stable sort by `r`, modelling Python's stable `sorted`: an element is
inserted in front of later elements it ties with, never behind them. -/
def sortBy {α : Type} (r : α → α → Bool) : List α → List α
  | [] => []
  | x :: xs => insertBy r x (sortBy r xs)

/-- Comparison used for descending-by-count order (`key=itemgetter(1), reverse=True`). -/
def countGe (a b : String × Nat) : Bool := decide (b.2 ≤ a.2)

/-- `Counter.most_common(n)`: the first `n` entries of the stable
descending-by-count sort of the counter's items (`heapq.nlargest` is
documented as `sorted(items, key=itemgetter(1), reverse=True)[:n]`). -/
def mostCommon (n : Nat) (c : PyCounter) : PyCounter := (sortBy countGe c).take n

/-- Adjacent-pairs check that a list is ordered by `r`. -/
def chainBy {α : Type} (r : α → α → Bool) : List α → Bool
  | [] => true
  | [_] => true
  | a :: b :: l => r a b && chainBy r (b :: l)

/-- A numeric JSON field as it appears in the archive: an integer or a string. -/
inductive JsonNum where
  | int : Nat → JsonNum
  | str : String → JsonNum
deriving DecidableEq

/-- Base-10 value of a digit string. -/
def natOfDigits (l : List Char) : Nat :=
  l.foldl (fun a c => a * 10 + (c.toNat - '0'.toNat)) 0

/-- Whether a string is a non-empty run of ASCII decimal digits. -/
def isDigits (s : String) : Bool := !s.data.isEmpty && s.data.all Char.isDigit

/-- `int(tw.get(field, 0))`: an absent field defaults to `0`, an integer passes
through, and a digit string is converted to its value.  (Python's `int` also
accepts surrounding whitespace, signs and underscores; no claim depends on
those inputs, so they are out of the modelled domain and map to failure.) -/
def pyInt : Option JsonNum → Option Nat
  | none => some 0
  | some (JsonNum.int n) => some n
  | some (JsonNum.str s) => if isDigits s then some (natOfDigits s.data) else none

/-- The successfully parsed `created_at` timestamp, at day granularity.
`datetime.strptime` with the fixed Twitter format is modelled by its parsed
result; time of day and UTC offset are omitted (no claim depends on them). -/
structure Date where
  year : Nat
  month : Nat
  day : Nat
deriving DecidableEq

/-- Zero-pad to two digits (strftime `%m` / `%d`). -/
def pad2 (n : Nat) : String := if n < 10 then "0" ++ toString n else toString n

/-- Zero-pad to four digits (strftime `%Y`). -/
def pad4 (n : Nat) : String :=
  if n < 10 then "000" ++ toString n
  else if n < 100 then "00" ++ toString n
  else if n < 1000 then "0" ++ toString n
  else toString n

/-- `str(dt.year)`, the yearly bucket key. -/
def yearKey (d : Date) : String := toString d.year

/-- `dt.strftime("%Y-%m")`, the monthly bucket key. -/
def monthKey (d : Date) : String := pad4 d.year ++ "-" ++ pad2 d.month

/-- `dt.strftime("%Y-%m-%d")`, the record's date string. -/
def dateKey (d : Date) : String := pad4 d.year ++ "-" ++ pad2 d.month ++ "-" ++ pad2 d.day

/-- Chronological comparison of parsed timestamps (`dates.sort()`). -/
def dateLe (a b : Date) : Bool :=
  decide (a.year < b.year) ||
    (decide (a.year = b.year) &&
      (decide (a.month < b.month) ||
        (decide (a.month = b.month) && decide (a.day ≤ b.day))))

/-- One entry of `tw["entities"]["urls"]`: the optional `expanded_url` and
`url` fields. -/
structure UrlEntity where
  expanded_url : Option String
  url : Option String
deriving DecidableEq

/-- `tw["entities"]`, with each absent list defaulting to empty.  A hashtag
entity is reduced to its `text`, a user-mention entity to its `screen_name`,
and the media list to its length (only emptiness is ever inspected). -/
structure Entities where
  hashtags : List String
  user_mentions : List String
  urls : List UrlEntity
  media : Nat
deriving DecidableEq

/-- One tweet object `tw`, with the fields the program reads.
`extended_entities` records whether that key is present. -/
structure Tweet where
  created_at : Date
  full_text : String
  entities : Entities
  extended_entities : Bool
  favorite_count : Option JsonNum
  retweet_count : Option JsonNum
  lang : Option String
deriving DecidableEq

/-- One element of the top-level JSON array: `{"tweet": tw}`. -/
structure TweetItem where
  tweet : Tweet
deriving DecidableEq

/-- `str.lower()` on a hashtag text, per character (the archive's hashtags are
ASCII; only ASCII case-folding is modelled). -/
def pyLower (s : String) : String := String.mk (s.data.map Char.toLower)

/-- The literal marker `"RT @"`. -/
def rtMarker : List Char := ['R', 'T', ' ', '@']

/-- `tw["full_text"].startswith("RT @")`. -/
def isRetweet (tw : Tweet) : Bool := rtMarker.isPrefixOf tw.full_text.data

/-- `"extended_entities" in tw or len(entities.media) > 0`. -/
def hasMedia (tw : Tweet) : Bool := tw.extended_entities || decide (0 < tw.entities.media)

/-- `u.get("expanded_url", u.get("url", ""))`. -/
def expandedOf (u : UrlEntity) : String :=
  match u.expanded_url with
  | some e => e
  | none =>
    match u.url with
    | some x => x
    | none => ""

/-- Characters allowed in a URL scheme (`urllib.parse.scheme_chars`). -/
def isSchemeChar (c : Char) : Bool := c.isAlphanum || c == '+' || c == '-' || c == '.'

/-- The scheme-stripping step of `urllib.parse.urlsplit`: when a `:` at a
positive index is preceded only by scheme characters starting with a letter,
everything through the colon is dropped. -/
def splitScheme (url : List Char) : List Char :=
  match url.findIdx? (fun c => c == ':') with
  | some i =>
    if 0 < i ∧ (url.take i).all isSchemeChar = true ∧ (url.headD ' ').isAlpha = true
    then url.drop (i + 1)
    else url
  | none => url

/-- Characters ending the netloc component (`/`, `?`, `#`). -/
def isNetlocEnd (c : Char) : Bool := c == '/' || c == '?' || c == '#'

/-- `urlparse(url).netloc`: after scheme removal the netloc is present only
when the rest starts with `//`, and runs until `/`, `?` or `#`; mismatched
square brackets raise `ValueError`, modelled as `none`. -/
def netloc (url : List Char) : Option (List Char) :=
  match splitScheme url with
  | '/' :: '/' :: r =>
    let n := r.takeWhile (fun c => !isNetlocEnd c)
    if (n.contains '[' && !n.contains ']') || (n.contains ']' && !n.contains '[')
    then none
    else some n
  | _ => some []

/-- `netloc.replace("www.", "")`: a single left-to-right scan removing each
non-overlapping occurrence of `"www."`, exactly Python's `str.replace` with an
empty replacement. -/
def removeWWW : List Char → List Char
  | 'w' :: 'w' :: 'w' :: '.' :: rest => removeWWW rest
  | c :: rest => c :: removeWWW rest
  | [] => []

/-- Python's substring test `pat in s`. -/
def hasSubstr (pat : List Char) : List Char → Bool
  | [] => pat.isEmpty
  | c :: rest => pat.isPrefixOf (c :: rest) || hasSubstr pat rest

/-- The platform's own domain, as a character list. -/
def twitterDotCom : List Char := "twitter.com".data

/-- The link-shortener domain, as a character list. -/
def tDotCo : List Char := "t.co".data

/-- `domain and "twitter.com" not in domain and "t.co" not in domain`. -/
def keepDomain (d : List Char) : Bool :=
  !d.isEmpty && !hasSubstr twitterDotCom d && !hasSubstr tDotCo d

/-- The body of the per-URL loop: resolve `expanded_url`/`url`, skip an empty
string, parse the netloc (`ValueError` is swallowed by `except: pass`), strip
`"www."`, and on a kept domain bump `all_domains`, the year's domain counter
and the record's `url_count`. -/
def urlStep (year : String) (acc : PyCounter × List (String × PyCounter) × Nat)
    (u : UrlEntity) : PyCounter × List (String × PyCounter) × Nat :=
  if (expandedOf u).data = [] then acc
  else
    match netloc (expandedOf u).data with
    | none => acc
    | some n =>
      if keepDomain (removeWWW n)
      then (incr acc.1 (String.mk (removeWWW n)),
            incrNested acc.2.1 year (String.mk (removeWWW n)),
            acc.2.2 + 1)
      else acc

/-- Monthly volume bucket. -/
structure MonthStats where
  total : Nat
  original : Nat
  retweet : Nat
deriving DecidableEq

/-- Yearly volume bucket. -/
structure YearStats where
  total : Nat
  original : Nat
  retweet : Nat
  with_media : Nat
  favorites : Nat
  retweet_count : Nat
deriving DecidableEq

/-- Fresh monthly bucket (`{"total": 0, "original": 0, "retweet": 0}`). -/
def monthZero : MonthStats := ⟨0, 0, 0⟩

/-- Fresh yearly bucket. -/
def yearZero : YearStats := ⟨0, 0, 0, 0, 0, 0⟩

/-- The monthly-volume increments of one record: `total += 1`, then
`retweet += 1` or `original += 1` by classification. -/
def monthlyUpd (is_rt : Bool) (s : MonthStats) : MonthStats :=
  { total := s.total + 1
    original := if is_rt then s.original else s.original + 1
    retweet := if is_rt then s.retweet + 1 else s.retweet }

/-- The yearly-volume increments of one record: `total += 1`, one of
`retweet`/`original`, `with_media` when media is present, and the two
engagement sums. -/
def yearlyUpd (is_rt has_media : Bool) (fav rt : Nat) (s : YearStats) : YearStats :=
  { total := s.total + 1
    original := if is_rt then s.original else s.original + 1
    retweet := if is_rt then s.retweet + 1 else s.retweet
    with_media := if has_media then s.with_media + 1 else s.with_media
    favorites := s.favorites + fav
    retweet_count := s.retweet_count + rt }

/-- The compact projection appended to `records` for one tweet. -/
structure RecordProj where
  date : String
  text : String
  favorites : Nat
  retweets : Nat
  is_retweet : Bool
  has_media : Bool
  url_count : Nat
deriving DecidableEq

/-- All accumulators of `process_tweets`, in declaration order. -/
structure AggState where
  all_hashtags : PyCounter
  all_mentions : PyCounter
  all_domains : PyCounter
  lang_counts : PyCounter
  monthly_volume : List (String × MonthStats)
  yearly_volume : List (String × YearStats)
  hashtags_by_year : List (String × PyCounter)
  mentions_by_year : List (String × PyCounter)
  domains_by_year : List (String × PyCounter)
  records : List RecordProj
deriving DecidableEq

/-- The empty accumulators the loop starts from. -/
def initState : AggState :=
  ⟨[], [], [], [], [], [], [], [], [], []⟩

/-- The whole loop body for one tweet, given the already-converted
`favorite_count` and `retweet_count` values. -/
def stepState (st : AggState) (tw : Tweet) (fav rt : Nat) : AggState :=
  let dt := tw.created_at
  let year := yearKey dt
  let year_month := monthKey dt
  let is_rt := isRetweet tw
  let has_media := hasMedia tw
  let hashtags := tw.entities.hashtags.map pyLower
  let urlRes := tw.entities.urls.foldl (urlStep year)
    (st.all_domains, st.domains_by_year, 0)
  { all_hashtags := hashtags.foldl incr st.all_hashtags
    all_mentions := tw.entities.user_mentions.foldl incr st.all_mentions
    all_domains := urlRes.1
    lang_counts := incr st.lang_counts (tw.lang.getD "und")
    monthly_volume := updateAssoc st.monthly_volume year_month monthZero (monthlyUpd is_rt)
    yearly_volume := updateAssoc st.yearly_volume year yearZero
      (yearlyUpd is_rt has_media fav rt)
    hashtags_by_year := hashtags.foldl (fun m h => incrNested m year h) st.hashtags_by_year
    mentions_by_year := tw.entities.user_mentions.foldl
      (fun m x => incrNested m year x) st.mentions_by_year
    domains_by_year := urlRes.2.1
    records := st.records ++
      [{ date := dateKey dt
         text := String.mk (tw.full_text.data.take 200)
         favorites := fav
         retweets := rt
         is_retweet := is_rt
         has_media := has_media
         url_count := urlRes.2.2 }] }

/-- One loop iteration: the `int()` conversions of the engagement fields can
raise (aborting the whole run); on success the accumulators advance by
`stepState`. -/
def processTweet (st : AggState) (item : TweetItem) : Option AggState :=
  match pyInt item.tweet.favorite_count, pyInt item.tweet.retweet_count with
  | some fav, some rt => some (stepState st item.tweet fav rt)
  | _, _ => none

/-- The `for t in tweets` loop over all records. -/
def runAgg : AggState → List TweetItem → Option AggState
  | st, [] => some st
  | st, t :: ts =>
    match processTweet st t with
    | some st₁ => runAgg st₁ ts
    | none => none

/-- Descending-by-favorites comparison for the top-tweets ranking. -/
def favGe (a b : RecordProj) : Bool := decide (b.favorites ≤ a.favorites)

/-- Descending-by-retweets comparison for the top-tweets ranking. -/
def rtGe (a b : RecordProj) : Bool := decide (b.retweets ≤ a.retweets)

/-- The four fields of a top-tweet entry. -/
structure TweetOut where
  date : String
  text : String
  favorites : Nat
  retweets : Nat
deriving DecidableEq

/-- Projection from a record to a top-tweet entry. -/
def projOut (r : RecordProj) : TweetOut := ⟨r.date, r.text, r.favorites, r.retweets⟩

/-- The final report document, with one flat field per output key. -/
structure Output where
  total_tweets : Nat
  original_tweets : Nat
  retweets : Nat
  with_media : Nat
  with_urls : Nat
  unique_hashtags : Nat
  unique_mentions : Nat
  date_range_start : String
  date_range_end : String
  top_hashtags : PyCounter
  top_mentions : PyCounter
  top_domains : PyCounter
  languages : PyCounter
  monthly_volume : List (String × MonthStats)
  yearly_volume : List (String × YearStats)
  hashtags_by_year : List (String × PyCounter)
  mentions_by_year : List (String × PyCounter)
  domains_by_year : List (String × PyCounter)
  top_tweets_by_favorites : List TweetOut
  top_tweets_by_retweets : List TweetOut
deriving DecidableEq

/-- The report builder (lines 160-236): totals over `records`, the top-N
rankings, and the date range.  `dates[0]` / `dates[-1]` on the sorted date
list raise `IndexError` when the input is empty, modelled by the `none`
branch of `head?` / `getLast?`. -/
def buildOutput (tweets : List TweetItem) (st : AggState) : Option Output :=
  let total := st.records.length
  let originals := st.records.countP (fun r => !r.is_retweet)
  let dates := sortBy dateLe (tweets.map (fun t => t.tweet.created_at))
  match dates.head?, dates.getLast? with
  | some d₀, some d₁ =>
    some
      { total_tweets := total
        original_tweets := originals
        retweets := total - originals
        with_media := st.records.countP (fun r => r.has_media)
        with_urls := st.records.countP (fun r => decide (0 < r.url_count))
        unique_hashtags := st.all_hashtags.length
        unique_mentions := st.all_mentions.length
        date_range_start := dateKey d₀
        date_range_end := dateKey d₁
        top_hashtags := mostCommon 50 st.all_hashtags
        top_mentions := mostCommon 50 st.all_mentions
        top_domains := mostCommon 50 st.all_domains
        languages := mostCommon 20 st.lang_counts
        monthly_volume := st.monthly_volume
        yearly_volume := st.yearly_volume
        hashtags_by_year := st.hashtags_by_year.map (fun p => (p.1, mostCommon 20 p.2))
        mentions_by_year := st.mentions_by_year.map (fun p => (p.1, mostCommon 20 p.2))
        domains_by_year := st.domains_by_year.map (fun p => (p.1, mostCommon 20 p.2))
        top_tweets_by_favorites := ((sortBy favGe st.records).take 20).map projOut
        top_tweets_by_retweets := ((sortBy rtGe st.records).take 20).map projOut }
  | _, _ => none

/-- `process_tweets` on the already-parsed record list: run the loop, then
build the report. -/
def process_tweets (tweets : List TweetItem) : Option Output :=
  match runAgg initState tweets with
  | some st => buildOutput tweets st
  | none => none

/-- Index of the first `[` in the file's text (`content.index("[")`; `none`
models the `ValueError` on a missing bracket). -/
def firstBracket : List Char → Option Nat
  | [] => none
  | c :: rest => if c = '[' then some 0 else (firstBracket rest).map (fun i => i + 1)

/-- `load_twitter_js` on the file's full text: parse the substring from the
first `[` as JSON.  `json.loads` is the standard library's parser, taken as a
parameter `parse`; failure of either step is `none`. -/
def load_twitter_js {α : Type} (parse : List Char → Option α) (content : List Char) :
    Option α :=
  match firstBracket content with
  | some i => parse (content.drop i)
  | none => none

/-- The substring of the text from its first `[` (empty when there is none). -/
def dropToBracket (content : List Char) : List Char :=
  match firstBracket content with
  | some i => content.drop i
  | none => []

/-! ### Association-list lemmas -/

theorem mem_keysOf_incr (c : PyCounter) (k a : String) :
    a ∈ keysOf (incr c k) ↔ a ∈ keysOf c ∨ a = k := by
  induction c with
  | nil => simp [incr, keysOf]
  | cons p rest ih =>
    obtain ⟨k₀, v⟩ := p
    by_cases h : k₀ = k
    · subst h
      simp [incr, keysOf]
      tauto
    · simp [incr, h, keysOf] at ih ⊢
      tauto

theorem nodup_keysOf_incr (c : PyCounter) (k : String) (h : (keysOf c).Nodup) :
    (keysOf (incr c k)).Nodup := by
  induction c with
  | nil => simp [incr, keysOf]
  | cons p rest ih =>
    obtain ⟨k₀, v⟩ := p
    rw [show keysOf ((k₀, v) :: rest) = k₀ :: keysOf rest from rfl, List.nodup_cons] at h
    by_cases hk : k₀ = k
    · subst hk
      rw [show incr ((k₀, v) :: rest) k₀ = (k₀, v + 1) :: rest from by simp [incr],
        show keysOf ((k₀, v + 1) :: rest) = k₀ :: keysOf rest from rfl, List.nodup_cons]
      exact h
    · rw [show incr ((k₀, v) :: rest) k = (k₀, v) :: incr rest k from by simp [incr, hk],
        show keysOf ((k₀, v) :: incr rest k) = k₀ :: keysOf (incr rest k) from rfl,
        List.nodup_cons]
      refine ⟨fun hmem => ?_, ih h.2⟩
      rcases (mem_keysOf_incr rest k k₀).1 hmem with h1 | h1
      · exact h.1 h1
      · exact hk h1

theorem mem_keysOf_foldl_incr (hs : List String) (c : PyCounter) (a : String) :
    a ∈ keysOf (hs.foldl incr c) ↔ a ∈ keysOf c ∨ a ∈ hs := by
  induction hs generalizing c with
  | nil => simp
  | cons h t ih =>
    simp only [List.foldl_cons, ih, mem_keysOf_incr, List.mem_cons]
    tauto

theorem nodup_keysOf_foldl_incr (hs : List String) (c : PyCounter)
    (h : (keysOf c).Nodup) : (keysOf (hs.foldl incr c)).Nodup := by
  induction hs generalizing c with
  | nil => exact h
  | cons x t ih => exact ih _ (nodup_keysOf_incr c x h)

theorem mem_keysOf_updateAssoc {α : Type} (l : List (String × α)) (k a : String)
    (dflt : α) (f : α → α) :
    a ∈ keysOf (updateAssoc l k dflt f) ↔ a ∈ keysOf l ∨ a = k := by
  induction l with
  | nil => simp [updateAssoc, keysOf]
  | cons p rest ih =>
    obtain ⟨k₀, v⟩ := p
    by_cases h : k₀ = k
    · subst h
      simp [updateAssoc, keysOf]
      tauto
    · simp [updateAssoc, h, keysOf] at ih ⊢
      tauto

theorem all_updateAssoc {α : Type} (P : α → Bool) (l : List (String × α))
    (k : String) (dflt : α) (f : α → α)
    (hl : l.all (fun p => P p.2) = true) (hd : P (f dflt) = true)
    (hf : ∀ v, P v = true → P (f v) = true) :
    (updateAssoc l k dflt f).all (fun p => P p.2) = true := by
  induction l with
  | nil => simpa [updateAssoc] using hd
  | cons p rest ih =>
    obtain ⟨k₀, v⟩ := p
    simp only [List.all_cons, Bool.and_eq_true] at hl
    by_cases h : k₀ = k
    · subst h
      simp [updateAssoc, hf v hl.1, hl.2]
    · simp [updateAssoc, h, hl.1, ih hl.2]

theorem sum_updateAssoc {α : Type} (g : α → Nat) (l : List (String × α))
    (k : String) (dflt : α) (f : α → α)
    (hf : ∀ v, g (f v) = g v + 1) (hd : g dflt = 0) :
    ((updateAssoc l k dflt f).map (fun p => g p.2)).sum =
      (l.map (fun p => g p.2)).sum + 1 := by
  induction l with
  | nil => simp [updateAssoc, hf, hd]
  | cons p rest ih =>
    obtain ⟨k₀, v⟩ := p
    by_cases h : k₀ = k
    · subst h
      simp [updateAssoc, hf]
      omega
    · simp [updateAssoc, h, ih]
      omega

/-! ### Stable sort lemmas -/

theorem chainBy_cons {α : Type} (r : α → α → Bool) (a b : α) (l : List α) :
    chainBy r (a :: b :: l) = (r a b && chainBy r (b :: l)) := rfl

theorem chainBy_singleton {α : Type} (r : α → α → Bool) (a : α) :
    chainBy r [a] = true := rfl

theorem chainBy_insertBy {α : Type} (r : α → α → Bool)
    (htot : ∀ a b, r a b = true ∨ r b a = true) (x : α) :
    ∀ l : List α, chainBy r l = true → chainBy r (insertBy r x l) = true := by
  intro l
  induction l with
  | nil => intro _; simp [insertBy, chainBy]
  | cons y l ih =>
    intro h
    by_cases hxy : r x y = true
    · rw [show insertBy r x (y :: l) = x :: y :: l from by simp [insertBy, hxy]]
      simp [chainBy_cons, hxy, h]
    · have hyx : r y x = true := (htot x y).resolve_left hxy
      rw [show insertBy r x (y :: l) = y :: insertBy r x l from by simp [insertBy, hxy]]
      cases l with
      | nil => simp [insertBy, chainBy_cons, chainBy_singleton, hyx]
      | cons z l₂ =>
        simp only [chainBy_cons, Bool.and_eq_true] at h
        have ihz : chainBy r (insertBy r x (z :: l₂)) = true := ih h.2
        by_cases hxz : r x z = true
        · rw [show insertBy r x (z :: l₂) = x :: z :: l₂ from by simp [insertBy, hxz]]
          simp [chainBy_cons, hyx, hxz, h.2]
        · rw [show insertBy r x (z :: l₂) = z :: insertBy r x l₂
            from by simp [insertBy, hxz]] at ihz ⊢
          simp [chainBy_cons, h.1, ihz]

theorem chainBy_sortBy {α : Type} (r : α → α → Bool)
    (htot : ∀ a b, r a b = true ∨ r b a = true) (l : List α) :
    chainBy r (sortBy r l) = true := by
  induction l with
  | nil => rfl
  | cons x xs ih => exact chainBy_insertBy r htot x _ ih

theorem chainBy_take {α : Type} (r : α → α → Bool) :
    ∀ (l : List α) (n : Nat), chainBy r l = true → chainBy r (l.take n) = true := by
  intro l
  induction l with
  | nil => intro n _; simp [chainBy]
  | cons a l ih =>
    intro n h
    cases n with
    | zero => simp [chainBy]
    | succ m =>
      cases l with
      | nil => simp [chainBy]
      | cons b l₂ =>
        simp only [chainBy_cons, Bool.and_eq_true] at h
        cases m with
        | zero => simp [chainBy]
        | succ m₂ =>
          have := ih (m₂ + 1) h.2
          simp only [List.take_succ_cons] at this ⊢
          simp [chainBy_cons, h.1, this]

theorem countGe_total (a b : String × Nat) : countGe a b = true ∨ countGe b a = true := by
  simp only [countGe, decide_eq_true_eq]
  omega

/-! ### Run-level extraction and invariants -/

theorem processTweet_some (st : AggState) (t : TweetItem) (st₁ : AggState)
    (h : processTweet st t = some st₁) :
    ∃ fav rt, pyInt t.tweet.favorite_count = some fav ∧
      pyInt t.tweet.retweet_count = some rt ∧ st₁ = stepState st t.tweet fav rt := by
  unfold processTweet at h
  cases hf : pyInt t.tweet.favorite_count with
  | none => rw [hf] at h; exact absurd h (by simp)
  | some fav =>
    cases hr : pyInt t.tweet.retweet_count with
    | none => rw [hf, hr] at h; exact absurd h (by simp)
    | some rt =>
      rw [hf, hr] at h
      exact ⟨fav, rt, rfl, rfl, (Option.some.injEq _ _ ▸ h).symm⟩

theorem runAgg_inv (P : AggState → Prop)
    (hstep : ∀ st tw fav rt, P st → P (stepState st tw fav rt)) :
    ∀ (ts : List TweetItem) (st st' : AggState),
      runAgg st ts = some st' → P st → P st' := by
  intro ts
  induction ts with
  | nil =>
    intro st st' h hp
    simp only [runAgg, Option.some.injEq] at h
    exact h ▸ hp
  | cons t ts ih =>
    intro st st' h hp
    simp only [runAgg] at h
    cases hft : processTweet st t with
    | none => rw [hft] at h; exact absurd h (by simp)
    | some st₁ =>
      rw [hft] at h
      obtain ⟨fav, rt, _, _, rfl⟩ := processTweet_some st t st₁ hft
      exact ih _ _ h (hstep st t.tweet fav rt hp)

theorem runAgg_records_length :
    ∀ (ts : List TweetItem) (st st' : AggState), runAgg st ts = some st' →
      st'.records.length = st.records.length + ts.length := by
  intro ts
  induction ts with
  | nil =>
    intro st st' h
    simp only [runAgg, Option.some.injEq] at h
    simp [← h]
  | cons t ts ih =>
    intro st st' h
    simp only [runAgg] at h
    cases hft : processTweet st t with
    | none => rw [hft] at h; exact absurd h (by simp)
    | some st₁ =>
      rw [hft] at h
      obtain ⟨fav, rt, _, _, rfl⟩ := processTweet_some st t st₁ hft
      have hlen : (stepState st t.tweet fav rt).records.length = st.records.length + 1 := by
        simp [stepState]
      rw [ih _ _ h, hlen]
      simp [List.length_cons]
      omega

theorem buildOutput_some (tweets : List TweetItem) (st : AggState) (out : Output)
    (h : buildOutput tweets st = some out) :
    out.total_tweets = st.records.length ∧
    out.original_tweets = st.records.countP (fun r => !r.is_retweet) ∧
    out.retweets = st.records.length - st.records.countP (fun r => !r.is_retweet) ∧
    out.unique_hashtags = st.all_hashtags.length ∧
    out.top_hashtags = mostCommon 50 st.all_hashtags ∧
    out.monthly_volume = st.monthly_volume ∧
    out.yearly_volume = st.yearly_volume ∧
    out.hashtags_by_year = st.hashtags_by_year.map (fun p => (p.1, mostCommon 20 p.2)) ∧
    out.mentions_by_year = st.mentions_by_year.map (fun p => (p.1, mostCommon 20 p.2)) ∧
    out.domains_by_year = st.domains_by_year.map (fun p => (p.1, mostCommon 20 p.2)) := by
  simp only [buildOutput] at h
  split at h
  · rw [Option.some.injEq] at h
    subst h
    exact ⟨rfl, rfl, rfl, rfl, rfl, rfl, rfl, rfl, rfl, rfl⟩
  · exact absurd h (by simp)

theorem process_tweets_some (tweets : List TweetItem) (out : Output)
    (h : process_tweets tweets = some out) :
    ∃ st, runAgg initState tweets = some st ∧ buildOutput tweets st = some out := by
  unfold process_tweets at h
  cases hr : runAgg initState tweets with
  | none => rw [hr] at h; exact absurd h (by simp)
  | some st =>
    rw [hr] at h
    exact ⟨st, rfl, h⟩

/-! ### Bucket invariants (claim C4) -/

/-- Every yearly bucket satisfies `original + retweet = total`. -/
def yearlyOk (l : List (String × YearStats)) : Bool :=
  l.all (fun p => p.2.original + p.2.retweet == p.2.total)

/-- Every monthly bucket satisfies `original + retweet = total`. -/
def monthlyOk (l : List (String × MonthStats)) : Bool :=
  l.all (fun p => p.2.original + p.2.retweet == p.2.total)

/-- The sum of `total` over all yearly buckets. -/
def sumYearTotals (l : List (String × YearStats)) : Nat :=
  (l.map (fun p => p.2.total)).sum

theorem yearlyUpd_ok (is_rt has_media : Bool) (fav rt : Nat) (s : YearStats)
    (h : (s.original + s.retweet == s.total) = true) :
    ((yearlyUpd is_rt has_media fav rt s).original + (yearlyUpd is_rt has_media fav rt s).retweet
      == (yearlyUpd is_rt has_media fav rt s).total) = true := by
  simp only [yearlyUpd, beq_iff_eq] at h ⊢
  cases is_rt <;> simp <;> omega

theorem monthlyUpd_ok (is_rt : Bool) (s : MonthStats)
    (h : (s.original + s.retweet == s.total) = true) :
    ((monthlyUpd is_rt s).original + (monthlyUpd is_rt s).retweet
      == (monthlyUpd is_rt s).total) = true := by
  simp only [monthlyUpd, beq_iff_eq] at h ⊢
  cases is_rt <;> simp <;> omega

theorem yearlyUpd_total (is_rt has_media : Bool) (fav rt : Nat) (s : YearStats) :
    (yearlyUpd is_rt has_media fav rt s).total = s.total + 1 := rfl

/-- The state invariant behind C4: both volume tables are internally
consistent and the yearly totals sum to the number of records. -/
def invBuckets (st : AggState) : Prop :=
  yearlyOk st.yearly_volume = true ∧ monthlyOk st.monthly_volume = true ∧
    sumYearTotals st.yearly_volume = st.records.length

theorem invBuckets_step (st : AggState) (tw : Tweet) (fav rt : Nat)
    (h : invBuckets st) : invBuckets (stepState st tw fav rt) := by
  obtain ⟨hy, hm, hs⟩ := h
  have hrec : (stepState st tw fav rt).records.length = st.records.length + 1 := by
    simp [stepState]
  refine ⟨?_, ?_, ?_⟩
  · show (updateAssoc st.yearly_volume (yearKey tw.created_at) yearZero
        (yearlyUpd (isRetweet tw) (hasMedia tw) fav rt)).all
        (fun p => p.2.original + p.2.retweet == p.2.total) = true
    exact all_updateAssoc (fun s : YearStats => s.original + s.retweet == s.total)
      st.yearly_volume (yearKey tw.created_at) yearZero
      (yearlyUpd (isRetweet tw) (hasMedia tw) fav rt) hy
      (by cases hir : isRetweet tw <;> simp [yearZero, yearlyUpd, hir])
      (fun v hv => yearlyUpd_ok _ _ _ _ v hv)
  · show (updateAssoc st.monthly_volume (monthKey tw.created_at) monthZero
        (monthlyUpd (isRetweet tw))).all
        (fun p => p.2.original + p.2.retweet == p.2.total) = true
    exact all_updateAssoc (fun s : MonthStats => s.original + s.retweet == s.total)
      st.monthly_volume (monthKey tw.created_at) monthZero
      (monthlyUpd (isRetweet tw)) hm
      (by cases hir : isRetweet tw <;> simp [monthZero, monthlyUpd, hir])
      (fun v hv => monthlyUpd_ok _ v hv)
  · show ((updateAssoc st.yearly_volume (yearKey tw.created_at) yearZero
        (yearlyUpd (isRetweet tw) (hasMedia tw) fav rt)).map (fun p => p.2.total)).sum =
      (stepState st tw fav rt).records.length
    rw [sum_updateAssoc (fun s => s.total) st.yearly_volume (yearKey tw.created_at)
      yearZero (yearlyUpd (isRetweet tw) (hasMedia tw) fav rt) (fun v => rfl) rfl, hrec]
    show sumYearTotals st.yearly_volume + 1 = st.records.length + 1
    omega

/-! ### Year-key lemmas (claim C10) -/

theorem mem_keysOf_incrNested (m : List (String × PyCounter)) (year k a : String) :
    a ∈ keysOf (incrNested m year k) ↔ a ∈ keysOf m ∨ a = year :=
  mem_keysOf_updateAssoc m year a [] (fun c => incr c k)

theorem mem_keysOf_foldl_incrNested (hs : List String) (year : String) :
    ∀ (m : List (String × PyCounter)) (a : String),
      a ∈ keysOf (hs.foldl (fun acc h => incrNested acc year h) m) →
        a ∈ keysOf m ∨ a = year := by
  induction hs with
  | nil => intro m a h; exact Or.inl h
  | cons x t ih =>
    intro m a h
    rcases ih (incrNested m year x) a h with h1 | h1
    · exact (mem_keysOf_incrNested m year x a).1 h1
    · exact Or.inr h1

theorem mem_keysOf_urlStep (year : String)
    (acc : PyCounter × List (String × PyCounter) × Nat) (u : UrlEntity) (a : String)
    (h : a ∈ keysOf (urlStep year acc u).2.1) : a ∈ keysOf acc.2.1 ∨ a = year := by
  unfold urlStep at h
  split at h
  · exact Or.inl h
  · split at h
    · exact Or.inl h
    · split at h
      · exact (mem_keysOf_incrNested acc.2.1 year _ a).1 h
      · exact Or.inl h

theorem mem_keysOf_urlFold (urls : List UrlEntity) (year : String) :
    ∀ (acc : PyCounter × List (String × PyCounter) × Nat) (a : String),
      a ∈ keysOf (urls.foldl (urlStep year) acc).2.1 → a ∈ keysOf acc.2.1 ∨ a = year := by
  induction urls with
  | nil => intro acc a h; exact Or.inl h
  | cons u t ih =>
    intro acc a h
    rcases ih (urlStep year acc u) a h with h1 | h1
    · exact mem_keysOf_urlStep year acc u a h1
    · exact Or.inr h1

/-- The state invariant behind C10: every year key of a per-year breakdown is
also a year key of `yearly_volume`. -/
def invYearKeys (st : AggState) : Prop :=
  (∀ a ∈ keysOf st.hashtags_by_year, a ∈ keysOf st.yearly_volume) ∧
  (∀ a ∈ keysOf st.mentions_by_year, a ∈ keysOf st.yearly_volume) ∧
  (∀ a ∈ keysOf st.domains_by_year, a ∈ keysOf st.yearly_volume)

theorem invYearKeys_step (st : AggState) (tw : Tweet) (fav rt : Nat)
    (h : invYearKeys st) : invYearKeys (stepState st tw fav rt) := by
  obtain ⟨hh, hm, hd⟩ := h
  have hy : ∀ a, a ∈ keysOf st.yearly_volume ∨ a = yearKey tw.created_at →
      a ∈ keysOf (stepState st tw fav rt).yearly_volume := by
    intro a ha
    exact (mem_keysOf_updateAssoc st.yearly_volume (yearKey tw.created_at) a yearZero
      (yearlyUpd (isRetweet tw) (hasMedia tw) fav rt)).2 ha
  refine ⟨?_, ?_, ?_⟩
  · intro a ha
    rcases mem_keysOf_foldl_incrNested _ _ _ a ha with h1 | h1
    · exact hy a (Or.inl (hh a h1))
    · exact hy a (Or.inr h1)
  · intro a ha
    rcases mem_keysOf_foldl_incrNested _ _ _ a ha with h1 | h1
    · exact hy a (Or.inl (hm a h1))
    · exact hy a (Or.inr h1)
  · intro a ha
    rcases mem_keysOf_urlFold _ _ _ a ha with h1 | h1
    · exact hy a (Or.inl (hd a h1))
    · exact hy a (Or.inr h1)

/-! ### Hashtag-key lemmas (claim C8) -/

/-- The lowercased hashtag strings of all records, in order. -/
def observedHashtags (tweets : List TweetItem) : List String :=
  (tweets.map (fun t => t.tweet.entities.hashtags.map pyLower)).flatten

theorem observedHashtags_cons (t : TweetItem) (ts : List TweetItem) :
    observedHashtags (t :: ts) =
      t.tweet.entities.hashtags.map pyLower ++ observedHashtags ts := by
  simp [observedHashtags]

theorem runAgg_hashtag_keys :
    ∀ (ts : List TweetItem) (st st' : AggState), runAgg st ts = some st' →
      ∀ a, a ∈ keysOf st'.all_hashtags ↔
        a ∈ keysOf st.all_hashtags ∨ a ∈ observedHashtags ts := by
  intro ts
  induction ts with
  | nil =>
    intro st st' h a
    simp only [runAgg, Option.some.injEq] at h
    subst h
    simp [observedHashtags]
  | cons t ts ih =>
    intro st st' h a
    simp only [runAgg] at h
    cases hft : processTweet st t with
    | none => rw [hft] at h; exact absurd h (by simp)
    | some st₁ =>
      rw [hft] at h
      obtain ⟨fav, rt, _, _, rfl⟩ := processTweet_some st t st₁ hft
      have hstep : ∀ b, b ∈ keysOf (stepState st t.tweet fav rt).all_hashtags ↔
          b ∈ keysOf st.all_hashtags ∨ b ∈ t.tweet.entities.hashtags.map pyLower := by
        intro b
        exact mem_keysOf_foldl_incr (t.tweet.entities.hashtags.map pyLower)
          st.all_hashtags b
      rw [ih _ _ h a, hstep a, observedHashtags_cons, List.mem_append]
      tauto

theorem runAgg_hashtag_nodup (ts : List TweetItem) (st st' : AggState)
    (h : runAgg st ts = some st') (h₀ : (keysOf st.all_hashtags).Nodup) :
    (keysOf st'.all_hashtags).Nodup := by
  refine runAgg_inv (fun s => (keysOf s.all_hashtags).Nodup) ?_ ts st st' h h₀
  intro s tw fav rt hp
  exact nodup_keysOf_foldl_incr _ _ hp

/-! ### String-valued count fields (claim C9) -/

theorem pyInt_digits (s : String) (h : isDigits s = true) :
    pyInt (some (JsonNum.str s)) = some (natOfDigits s.data) := by
  simp [pyInt, h]

theorem processTweet_congr (t₁ t₂ : TweetItem)
    (hfav : pyInt t₁.tweet.favorite_count = pyInt t₂.tweet.favorite_count)
    (hrt : pyInt t₁.tweet.retweet_count = pyInt t₂.tweet.retweet_count)
    (hrest₁ : t₁.tweet.created_at = t₂.tweet.created_at)
    (hrest₂ : t₁.tweet.full_text = t₂.tweet.full_text)
    (hrest₃ : t₁.tweet.entities = t₂.tweet.entities)
    (hrest₄ : t₁.tweet.extended_entities = t₂.tweet.extended_entities)
    (hrest₅ : t₁.tweet.lang = t₂.tweet.lang) :
    ∀ st, processTweet st t₁ = processTweet st t₂ := by
  intro st
  obtain ⟨⟨d₁, x₁, e₁, m₁, f₁, r₁, l₁⟩⟩ := t₁
  obtain ⟨⟨d₂, x₂, e₂, m₂, f₂, r₂, l₂⟩⟩ := t₂
  simp only at hrest₁ hrest₂ hrest₃ hrest₄ hrest₅
  subst hrest₁ hrest₂ hrest₃ hrest₄ hrest₅
  simp only at hfav hrt
  unfold processTweet
  simp only
  rw [hfav, hrt]
  cases pyInt f₂ with
  | none => rfl
  | some fav =>
    cases pyInt r₂ with
    | none => rfl
    | some rt =>
      simp only [Option.some.injEq]
      unfold stepState isRetweet hasMedia
      rfl

theorem runAgg_congr (t₁ t₂ : TweetItem)
    (h : ∀ st, processTweet st t₁ = processTweet st t₂) (pre post : List TweetItem) :
    ∀ st, runAgg st (pre ++ t₁ :: post) = runAgg st (pre ++ t₂ :: post) := by
  induction pre with
  | nil =>
    intro st
    simp only [List.nil_append, runAgg, h st]
  | cons p pre ih =>
    intro st
    simp only [List.cons_append, runAgg]
    cases processTweet st p with
    | none => rfl
    | some st₁ => exact ih st₁

theorem process_tweets_congr (t₁ t₂ : TweetItem) (pre post : List TweetItem)
    (hstep : ∀ st, processTweet st t₁ = processTweet st t₂)
    (hdate : t₁.tweet.created_at = t₂.tweet.created_at) :
    process_tweets (pre ++ t₁ :: post) = process_tweets (pre ++ t₂ :: post) := by
  unfold process_tweets
  rw [runAgg_congr t₁ t₂ hstep pre post initState]
  cases runAgg initState (pre ++ t₂ :: post) with
  | none => rfl
  | some st =>
    simp only
    unfold buildOutput
    have hmap : (pre ++ t₁ :: post).map (fun t => t.tweet.created_at) =
        (pre ++ t₂ :: post).map (fun t => t.tweet.created_at) := by
      simp [hdate]
    rw [hmap]

/-! ### Loader lemmas (claim C7) -/

theorem firstBracket_none_iff (l : List Char) :
    firstBracket l = none ↔ '[' ∉ l := by
  induction l with
  | nil => simp [firstBracket]
  | cons c rest ih =>
    by_cases hc : c = '['
    · subst hc
      simp [firstBracket]
    · simp [firstBracket, hc, Option.map_eq_none, ih, Ne.symm hc]

theorem firstBracket_append (pre suf : List Char) (hpre : '[' ∉ pre)
    (hsuf : suf.head? = some '[') :
    firstBracket (pre ++ suf) = some pre.length := by
  induction pre with
  | nil =>
    cases suf with
    | nil => simp at hsuf
    | cons c rest =>
      simp only [List.head?_cons, Option.some.injEq] at hsuf
      simp [firstBracket, hsuf]
  | cons c rest ih =>
    simp only [List.mem_cons, not_or] at hpre
    simp [firstBracket, Ne.symm hpre.1, ih hpre.2]

/-! ### Concrete inputs used by counterexamples and witnesses -/

/-- A URL entity whose domain is unrelated to the platform but contains
`"t.co"` as a substring. -/
def urlScott : UrlEntity := { expanded_url := some "https://scott.com/a", url := none }

/-- A record whose only URL points at `scott.com`. -/
def tweetScott : TweetItem :=
  ⟨{ created_at := ⟨2020, 5, 1⟩, full_text := "check this out",
     entities := { hashtags := [], user_mentions := [], urls := [urlScott], media := 0 },
     extended_entities := false, favorite_count := none, retweet_count := none,
     lang := none }⟩

/-- A URL entity whose host has a non-leading `"www."`. -/
def urlEnWWW : UrlEntity :=
  { expanded_url := some "https://en.www.example.com/p", url := none }

/-- A record whose only URL has a non-leading `"www."` in its host. -/
def tweetEnWWW : TweetItem :=
  ⟨{ created_at := ⟨2021, 3, 2⟩, full_text := "a link",
     entities := { hashtags := [], user_mentions := [], urls := [urlEnWWW], media := 0 },
     extended_entities := false, favorite_count := none, retweet_count := none,
     lang := none }⟩

/-- A URL entity with an ordinary `www.`-prefixed host. -/
def urlExample : UrlEntity :=
  { expanded_url := some "https://www.example.com/a", url := none }

/-- Modelled from the spec: "strips a leading \"www.\" prefix" — removal of a
leading `"www."` only, for comparison with the code's `removeWWW`. -/
def specStripLeadingWWW (host : List Char) : List Char :=
  if ('w' :: 'w' :: 'w' :: '.' :: []).isPrefixOf host then host.drop 4 else host

/-- A sample record: original tweet with two hashtags, a mention and a URL. -/
def sampleTweet1 : TweetItem :=
  ⟨{ created_at := ⟨2020, 5, 1⟩, full_text := "hello world",
     entities := { hashtags := ["History", "data"], user_mentions := ["alice"],
                   urls := [urlExample], media := 0 },
     extended_entities := false, favorite_count := some (JsonNum.int 3),
     retweet_count := some (JsonNum.int 1), lang := some "en" }⟩

/-- A sample record: a retweet with one hashtag, media, and a string-valued
favorite count. -/
def sampleTweet2 : TweetItem :=
  ⟨{ created_at := ⟨2021, 1, 9⟩, full_text := "RT @alice: hi",
     entities := { hashtags := ["history"], user_mentions := [], urls := [], media := 1 },
     extended_entities := false, favorite_count := some (JsonNum.str "12"),
     retweet_count := none, lang := some "en" }⟩

/-- The two-record sample input used by the witnesses. -/
def sampleTweets : List TweetItem := [sampleTweet1, sampleTweet2]

/-- All-empty report, used only as a `getD` fallback below. -/
def emptyOutput : Output :=
  { total_tweets := 0, original_tweets := 0, retweets := 0, with_media := 0,
    with_urls := 0, unique_hashtags := 0, unique_mentions := 0,
    date_range_start := "", date_range_end := "", top_hashtags := [],
    top_mentions := [], top_domains := [], languages := [], monthly_volume := [],
    yearly_volume := [], hashtags_by_year := [], mentions_by_year := [],
    domains_by_year := [], top_tweets_by_favorites := [], top_tweets_by_retweets := [] }

/-- The aggregation state reached on the sample input. -/
def stW : AggState := (runAgg initState sampleTweets).getD initState

/-- The report produced on the sample input. -/
def outW : Output := (process_tweets sampleTweets).getD emptyOutput

/-- A toy parser standing in for `json.loads` in the loader witness. -/
def parseLen (l : List Char) : Option Nat := some l.length

/-! ### Claims C1-C3 -/

/-- C1 (counterexample): the host `scott.com` is non-empty and equal to
neither `twitter.com` nor `t.co`, yet the program discards it — the code
tests substring containment, not equality — so a record whose only URL
points at `scott.com` contributes no domain and `with_urls = 0`. -/
theorem C1_counterexample :
    netloc ("https://scott.com/a".data) = some ("scott.com".data) ∧
    removeWWW ("scott.com".data) = "scott.com".data ∧
    ("scott.com" : String) ≠ "" ∧
    ("scott.com" : String) ≠ "twitter.com" ∧
    ("scott.com" : String) ≠ "t.co" ∧
    (process_tweets [tweetScott]).map Output.with_urls = some 0 ∧
    (process_tweets [tweetScott]).map Output.top_domains = some [] := by
  refine ⟨rfl, rfl, ?_, ?_, ?_, rfl, rfl⟩ <;> decide

/-- C1 (amended): after the host of a record URL is parsed, the resulting
domain is discarded if and only if it is empty or contains `"twitter.com"`
or `"t.co"` as a substring; every other domain is counted once in
`all_domains`, once in that record's year's domain counter, and once toward
the record's `url_count`. -/
theorem C1_domain_filter (year : String)
    (acc : PyCounter × List (String × PyCounter) × Nat) (u : UrlEntity)
    (host : List Char) (hexp : ¬(expandedOf u).data = [])
    (hnet : netloc (expandedOf u).data = some host) :
    (urlStep year acc u =
      if keepDomain (removeWWW host)
      then (incr acc.1 (String.mk (removeWWW host)),
            incrNested acc.2.1 year (String.mk (removeWWW host)),
            acc.2.2 + 1)
      else acc) ∧
    (keepDomain (removeWWW host) = true ↔
      ¬removeWWW host = [] ∧ hasSubstr twitterDotCom (removeWWW host) = false ∧
        hasSubstr tDotCo (removeWWW host) = false) := by
  constructor
  · simp only [urlStep, if_neg hexp, hnet]
  · simp only [keepDomain, Bool.and_eq_true, Bool.not_eq_true']
    cases removeWWW host <;> simp

/-- C1 (witness): for the host `www.example.com` the filter keeps the domain
`example.com` and counts it once everywhere. -/
theorem C1_witness :
    ¬(expandedOf urlExample).data = [] ∧
    netloc (expandedOf urlExample).data = some ("www.example.com".data) ∧
    ((urlStep "2020" ([], [], 0) urlExample =
      if keepDomain (removeWWW ("www.example.com".data))
      then (incr ([] : PyCounter) (String.mk (removeWWW ("www.example.com".data))),
            incrNested ([] : List (String × PyCounter)) "2020"
              (String.mk (removeWWW ("www.example.com".data))),
            (0 : Nat) + 1)
      else ([], [], 0)) ∧
    (keepDomain (removeWWW ("www.example.com".data)) = true ↔
      ¬removeWWW ("www.example.com".data) = [] ∧
        hasSubstr twitterDotCom (removeWWW ("www.example.com".data)) = false ∧
        hasSubstr tDotCo (removeWWW ("www.example.com".data)) = false)) :=
  ⟨by decide, rfl, C1_domain_filter "2020" ([], [], 0) urlExample
    ("www.example.com".data) (by decide) rfl⟩

/-- The code's `replace` removes a leading `"www."` wholesale. -/
theorem removeWWW_leading (t : List Char) :
    removeWWW ('w' :: 'w' :: 'w' :: '.' :: t) = removeWWW t := rfl

/-- C2 (counterexample): for the host `en.www.example.com` the spec-modelled
leading-prefix strip leaves the host unchanged, but the code records
`en.example.com` in the domain counters — `str.replace` removes the
non-leading `"www."` as well. -/
theorem C2_counterexample :
    netloc ("https://en.www.example.com/p".data) = some ("en.www.example.com".data) ∧
    specStripLeadingWWW ("en.www.example.com".data) = "en.www.example.com".data ∧
    removeWWW ("en.www.example.com".data) = "en.example.com".data ∧
    ("en.example.com" : String) ≠ "en.www.example.com" ∧
    (process_tweets [tweetEnWWW]).map Output.top_domains =
      some [("en.example.com", 1)] := by
  refine ⟨rfl, rfl, rfl, ?_, rfl⟩
  decide

/-- C2 (amended): the domain recorded for a parsed host is the host with
every left-to-right non-overlapping occurrence of `"www."` removed
(`str.replace`), not only a leading prefix: a leading `"www."` is removed,
and so is a non-leading one, as `en.www.example.com` shows. -/
theorem C2_www_replace (year : String)
    (acc : PyCounter × List (String × PyCounter) × Nat) (u : UrlEntity)
    (host : List Char) (hexp : ¬(expandedOf u).data = [])
    (hnet : netloc (expandedOf u).data = some host)
    (hkeep : keepDomain (removeWWW host) = true) :
    (urlStep year acc u).1 = incr acc.1 (String.mk (removeWWW host)) ∧
    removeWWW ("www.example.com".data) = "example.com".data ∧
    removeWWW ("en.www.example.com".data) = "en.example.com".data := by
  refine ⟨?_, rfl, rfl⟩
  simp only [urlStep, if_neg hexp, hnet, if_pos hkeep]

/-- C2 (witness): for the host `www.example.com` the recorded domain is
`example.com`. -/
theorem C2_witness :
    keepDomain (removeWWW ("www.example.com".data)) = true ∧
    ((urlStep "2021" ([], [], 0) urlExample).1 =
      incr ([] : PyCounter) (String.mk (removeWWW ("www.example.com".data))) ∧
    removeWWW ("www.example.com".data) = "example.com".data ∧
    removeWWW ("en.www.example.com".data) = "en.example.com".data) :=
  ⟨by decide, C2_www_replace "2021" ([], [], 0) urlExample ("www.example.com".data)
    (by decide) rfl (by decide)⟩

/-- C3 (counterexample): on an empty record list the aggregation does not
succeed — `dates[0]` on the empty sorted date list fails — so no report with
`total_tweets = 0` is produced. -/
theorem C3_counterexample : process_tweets ([] : List TweetItem) = none := rfl

/-- C3 (amended): on a zero-record input the per-record loop itself succeeds
with all accumulators empty, but the run as a whole fails while computing the
date range (first element of an empty list), so no report is produced. -/
theorem C3_empty_run :
    runAgg initState [] = some initState ∧
    process_tweets ([] : List TweetItem) = none :=
  ⟨rfl, rfl⟩

/-! ### Claims C4-C7 -/

/-- C4: in every yearly and monthly bucket, `original + retweet = total`, and
the yearly totals sum to `total_tweets`. -/
theorem C4_bucket_sums (tweets : List TweetItem) (out : Output)
    (h : process_tweets tweets = some out) :
    yearlyOk out.yearly_volume = true ∧ monthlyOk out.monthly_volume = true ∧
    sumYearTotals out.yearly_volume = out.total_tweets := by
  obtain ⟨st, hr, hb⟩ := process_tweets_some tweets out h
  obtain ⟨ht, _, _, _, _, hmv, hyv, _, _, _⟩ := buildOutput_some tweets st out hb
  have hinv : invBuckets st :=
    runAgg_inv invBuckets invBuckets_step tweets initState st hr ⟨rfl, rfl, rfl⟩
  obtain ⟨hy, hm, hs⟩ := hinv
  rw [hyv, hmv, ht]
  exact ⟨hy, hm, hs⟩

/-- C4 (witness): the bucket invariants hold on the sample report. -/
theorem C4_witness :
    yearlyOk outW.yearly_volume = true ∧ monthlyOk outW.monthly_volume = true ∧
    sumYearTotals outW.yearly_volume = outW.total_tweets :=
  C4_bucket_sums sampleTweets outW rfl

/-- C5: `top_hashtags` has at most 50 entries, is ordered by count
descending, and equals the 50-entry prefix of the stable descending sort of
the full global hashtag counter (whose insertion order is first-seen order,
so ties are broken by first appearance). -/
theorem C5_top_hashtags (tweets : List TweetItem) (st : AggState) (out : Output)
    (h₁ : runAgg initState tweets = some st) (h₂ : process_tweets tweets = some out) :
    out.top_hashtags.length ≤ 50 ∧
    chainBy countGe out.top_hashtags = true ∧
    out.top_hashtags = (sortBy countGe st.all_hashtags).take 50 := by
  obtain ⟨st', hr, hb⟩ := process_tweets_some tweets out h₂
  rw [h₁] at hr
  injection hr with hst
  subst hst
  obtain ⟨_, _, _, _, htop, _, _, _, _, _⟩ := buildOutput_some tweets st out hb
  rw [htop]
  refine ⟨?_, ?_, rfl⟩
  · show ((sortBy countGe st.all_hashtags).take 50).length ≤ 50
    rw [List.length_take]
    exact min_le_left _ _
  · exact chainBy_take countGe _ 50 (chainBy_sortBy countGe countGe_total _)

/-- C5 (witness): the ranking facts hold on the sample report. -/
theorem C5_witness :
    outW.top_hashtags.length ≤ 50 ∧
    chainBy countGe outW.top_hashtags = true ∧
    outW.top_hashtags = (sortBy countGe stW.all_hashtags).take 50 :=
  C5_top_hashtags sampleTweets stW outW rfl rfl

/-- C6: `original_tweets + retweets = total_tweets`, and `total_tweets` is
the number of input records. -/
theorem C6_total_split (tweets : List TweetItem) (out : Output)
    (h : process_tweets tweets = some out) :
    out.original_tweets + out.retweets = out.total_tweets ∧
    out.total_tweets = tweets.length := by
  obtain ⟨st, hr, hb⟩ := process_tweets_some tweets out h
  obtain ⟨ht, ho, hrt, _⟩ := buildOutput_some tweets st out hb
  have hlen := runAgg_records_length tweets initState st hr
  have hcount : st.records.countP (fun r => !r.is_retweet) ≤ st.records.length :=
    List.countP_le_length _
  refine ⟨?_, ?_⟩
  · rw [ht, ho, hrt]
    omega
  · rw [ht, hlen]
    simp [initState]

/-- C6 (witness): the totals split holds on the sample report. -/
theorem C6_witness :
    outW.original_tweets + outW.retweets = outW.total_tweets ∧
    outW.total_tweets = sampleTweets.length :=
  C6_total_split sampleTweets outW rfl

/-- C7: for a text that splits as a bracket-free prefix followed by the
substring from its first `[`, the loader returns exactly the parse of that
substring (so nothing before the first `[` influences the result), it fails
precisely when that substring fails to parse, and on a text with no `[` it
fails outright. -/
theorem C7_loader {α : Type} (parse : List Char → Option α)
    (content pre suf : List Char) (hc : content = pre ++ suf)
    (hpre : '[' ∉ pre) (hhd : suf.head? = some '[') :
    load_twitter_js parse content = parse suf ∧
    (load_twitter_js parse content = none ↔ parse suf = none) ∧
    load_twitter_js parse pre = none := by
  have hfb : firstBracket content = some pre.length := by
    rw [hc]
    exact firstBracket_append pre suf hpre hhd
  have hdrop : content.drop pre.length = suf := by
    rw [hc]
    exact List.drop_left pre suf
  have hload : load_twitter_js parse content = parse suf := by
    unfold load_twitter_js
    rw [hfb]
    show parse (content.drop pre.length) = parse suf
    rw [hdrop]
  refine ⟨hload, by rw [hload], ?_⟩
  unfold load_twitter_js
  rw [(firstBracket_none_iff pre).2 hpre]

/-- C7 (witness): on `"var x = [1]"` the loader returns the parse of `"[1]"`
and fails on the bracket-free prefix. -/
theorem C7_witness :
    load_twitter_js parseLen ("var x = [1]".data) = parseLen ("[1]".data) ∧
    (load_twitter_js parseLen ("var x = [1]".data) = none ↔
      parseLen ("[1]".data) = none) ∧
    load_twitter_js parseLen ("var x = ".data) = none :=
  C7_loader parseLen ("var x = [1]".data) ("var x = ".data) ("[1]".data)
    (by decide) (by decide) rfl

/-! ### Claims C8-C10 -/

/-- C8: `unique_hashtags` is the number of distinct lowercased hashtag
strings observed across all records. -/
theorem C8_unique_hashtags (tweets : List TweetItem) (out : Output)
    (h : process_tweets tweets = some out) :
    out.unique_hashtags = (observedHashtags tweets).toFinset.card := by
  obtain ⟨st, hr, hb⟩ := process_tweets_some tweets out h
  obtain ⟨_, _, _, huniq, _⟩ := buildOutput_some tweets st out hb
  have hmem := runAgg_hashtag_keys tweets initState st hr
  have hnd : (keysOf st.all_hashtags).Nodup :=
    runAgg_hashtag_nodup tweets initState st hr (by simp [initState, keysOf])
  have hlen : st.all_hashtags.length = (keysOf st.all_hashtags).length := by
    simp [keysOf]
  have hset : (keysOf st.all_hashtags).toFinset = (observedHashtags tweets).toFinset := by
    ext a
    simp only [List.mem_toFinset]
    rw [hmem a]
    simp [initState, keysOf]
  rw [huniq, hlen, ← List.toFinset_card_of_nodup hnd, hset]

/-- C8 (witness): the distinct-hashtag count matches on the sample input. -/
theorem C8_witness :
    outW.unique_hashtags = (observedHashtags sampleTweets).toFinset.card :=
  C8_unique_hashtags sampleTweets outW rfl

/-- Replacement of a tweet's `favorite_count` field. -/
def withFav (tw : Tweet) (v : Option JsonNum) : Tweet := { tw with favorite_count := v }

/-- Replacement of a tweet's `retweet_count` field. -/
def withRT (tw : Tweet) (v : Option JsonNum) : Tweet := { tw with retweet_count := v }

/-- C9: a digit-string `favorite_count` or `retweet_count` is converted by
`int()` to its numeric value and the whole aggregation output is identical
to the output on the same record with the integer-valued field. -/
theorem C9_string_counts (pre post : List TweetItem) (tw : Tweet) (s : String)
    (h : isDigits s = true) :
    pyInt (some (JsonNum.str s)) = some (natOfDigits s.data) ∧
    process_tweets (pre ++ ⟨withFav tw (some (JsonNum.str s))⟩ :: post) =
      process_tweets
        (pre ++ ⟨withFav tw (some (JsonNum.int (natOfDigits s.data)))⟩ :: post) ∧
    process_tweets (pre ++ ⟨withRT tw (some (JsonNum.str s))⟩ :: post) =
      process_tweets
        (pre ++ ⟨withRT tw (some (JsonNum.int (natOfDigits s.data)))⟩ :: post) := by
  refine ⟨pyInt_digits s h, ?_, ?_⟩
  · apply process_tweets_congr
    · intro st
      apply processTweet_congr
      · show pyInt (some (JsonNum.str s)) = pyInt (some (JsonNum.int (natOfDigits s.data)))
        rw [pyInt_digits s h]
        rfl
      · rfl
      · rfl
      · rfl
      · rfl
      · rfl
      · rfl
    · rfl
  · apply process_tweets_congr
    · intro st
      apply processTweet_congr
      · rfl
      · show pyInt (some (JsonNum.str s)) = pyInt (some (JsonNum.int (natOfDigits s.data)))
        rw [pyInt_digits s h]
        rfl
      · rfl
      · rfl
      · rfl
      · rfl
      · rfl
    · rfl

/-- C9 (witness): replacing the sample tweet's count fields by the digit
string `"42"` or by the integer `42` gives identical reports. -/
theorem C9_witness :
    isDigits "42" = true ∧
    (pyInt (some (JsonNum.str "42")) = some (natOfDigits "42".data) ∧
     process_tweets
         ([] ++ ⟨withFav sampleTweet1.tweet (some (JsonNum.str "42"))⟩ :: [sampleTweet2]) =
       process_tweets
         ([] ++ ⟨withFav sampleTweet1.tweet
           (some (JsonNum.int (natOfDigits "42".data)))⟩ :: [sampleTweet2]) ∧
     process_tweets
         ([] ++ ⟨withRT sampleTweet1.tweet (some (JsonNum.str "42"))⟩ :: [sampleTweet2]) =
       process_tweets
         ([] ++ ⟨withRT sampleTweet1.tweet
           (some (JsonNum.int (natOfDigits "42".data)))⟩ :: [sampleTweet2])) :=
  ⟨by decide, C9_string_counts [] [sampleTweet2] sampleTweet1.tweet "42" (by decide)⟩

/-- Keys of the first association list all occur among the keys of the second. -/
def keysSub {α β : Type} (a : List (String × α)) (b : List (String × β)) : Bool :=
  a.all (fun p => b.any (fun q => q.1 == p.1))

theorem keysSub_iff {α β : Type} (a : List (String × α)) (b : List (String × β)) :
    keysSub a b = true ↔ ∀ y ∈ keysOf a, y ∈ keysOf b := by
  simp only [keysSub, List.all_eq_true, List.any_eq_true, beq_iff_eq, keysOf,
    List.mem_map]
  constructor
  · rintro h y ⟨p, hp, rfl⟩
    obtain ⟨q, hq, hq1⟩ := h p hp
    exact ⟨q, hq, hq1⟩
  · intro h p hp
    obtain ⟨q, hq, hq1⟩ := h p.1 ⟨p, hp, rfl⟩
    exact ⟨q, hq, hq1⟩

theorem keysOf_map_snd {α β : Type} (l : List (String × α)) (g : α → β) :
    keysOf (l.map (fun p => (p.1, g p.2))) = keysOf l := by
  simp [keysOf, List.map_map, Function.comp]

/-- C10: every year key of `hashtags_by_year`, `mentions_by_year` or
`domains_by_year` is also a key of `yearly_volume`. -/
theorem C10_year_keys (tweets : List TweetItem) (out : Output)
    (h : process_tweets tweets = some out) :
    keysSub out.hashtags_by_year out.yearly_volume = true ∧
    keysSub out.mentions_by_year out.yearly_volume = true ∧
    keysSub out.domains_by_year out.yearly_volume = true := by
  obtain ⟨st, hr, hb⟩ := process_tweets_some tweets out h
  obtain ⟨_, _, _, _, _, _, hyv, hhb, hmb, hdb⟩ := buildOutput_some tweets st out hb
  have hinv : invYearKeys st :=
    runAgg_inv invYearKeys invYearKeys_step tweets initState st hr
      ⟨by simp [initState, keysOf], by simp [initState, keysOf],
       by simp [initState, keysOf]⟩
  obtain ⟨hh, hm, hd⟩ := hinv
  rw [hyv, hhb, hmb, hdb]
  refine ⟨?_, ?_, ?_⟩ <;> rw [keysSub_iff, keysOf_map_snd]
  · exact hh
  · exact hm
  · exact hd

/-- C10 (witness): the year-key inclusion holds on the sample report. -/
theorem C10_witness :
    keysSub outW.hashtags_by_year outW.yearly_volume = true ∧
    keysSub outW.mentions_by_year outW.yearly_volume = true ∧
    keysSub outW.domains_by_year outW.yearly_volume = true :=
  C10_year_keys sampleTweets outW rfl
